import Mathlib

/-!
Verification of the `filelog` rotating log writer (package `filelog` of the
go-sizeof-webapp repository) against its natural-language specification.

The Go source is shallowly embedded: the in-memory file system is an
association list from path to file data, the `Writer` struct becomes
`WState`, and the goroutine started by `NewWriter` becomes a step function
over queue items.  The two channels `w.rec` and `w.rot` of the Go code are
modelled as two separate queues, and the nondeterminism of Go's `select`
is modelled by an explicit event trace choosing which queue is read.

Machine integers: the Go counters `maxlinesCurlines` and `maxsizeCursize`
are `uint64`; increments are taken modulo 2^64 via `u64`.
-/

namespace Filelog

/-- Reduction of a natural number modulo 2^64, modelling Go `uint64`
arithmetic on the writer's counters. -/
def u64 (n : Nat) : Nat := n % (2 ^ 64)

/-- Model of Go `time.Time` values: seconds since the epoch. -/
abbrev Time := Int

/-- Model of `t.Format(dayFormat)` with `dayFormat = "2006-01-02"`: the
calendar day of a timestamp rendered as a string.  Only equality of the
rendered days matters to the code, so the day index is rendered directly. -/
def dayOf (t : Time) : String := toString (t / 86400)

/-- Data stored for one file of the modelled directory. -/
structure FileData where
  content : String
  modTime : Time
deriving DecidableEq, Repr

/-- The modelled directory: an association list from file name to data.
The target file and its rotated siblings live in one directory, so names
are bare (no separate directory component). -/
abbrev FS := List (String × FileData)

/-- Look a file up by name (the first binding wins). -/
def fsGet : FS → String → Option FileData
  | [], _ => none
  | (q, d) :: rest, p => if q = p then some d else fsGet rest p

/-- Replace the binding of `p`, or add one if absent. -/
def fsSet : FS → String → FileData → FS
  | [], p, d => [(p, d)]
  | (q, e) :: rest, p, d => if q = p then (q, d) :: rest else (q, e) :: fsSet rest p d

/-- Delete the binding of `p` (model of `os.Remove`). -/
def fsRemove : FS → String → FS
  | [], _ => []
  | (q, e) :: rest, p => if q = p then fsRemove rest p else (q, e) :: fsRemove rest p

/-- Model of `os.Rename(src, dst)` in the success and in the tolerated
`os.IsNotExist` case: when `src` is absent the file system is unchanged
(the caller ignores the not-exist error). -/
def fsRename (fs : FS) (src dst : String) : FS :=
  match fsGet fs src with
  | none => fs
  | some d => fsSet (fsRemove fs src) dst d

/-- Append bytes to the file `p`, updating its modification time. -/
def fsAppend (fs : FS) (p : String) (s : String) (now : Time) : FS :=
  match fsGet fs p with
  | some d => fsSet fs p ⟨d.content ++ s, now⟩
  | none => fsSet fs p ⟨s, now⟩

/-- Number of lines `bufio.Scanner` reports for a file content: one per
newline, plus one for a final unterminated line. -/
def countLines (s : String) : Nat :=
  s.toList.count '\n' +
    (if s.toList ≠ [] ∧ s.toList.getLast? ≠ some '\n' then 1 else 0)

/-- A target of the session writer.  `openNewFile` sets the writer to
`io.MultiWriter(fd, os.Stdout)`, i.e. the pair of the target file and the
process standard output. -/
inductive Sink where
  | file (path : String)
  | stdout
deriving DecidableEq, Repr

/-- The mutable fields of the Go `Writer` struct that the actor goroutine
reads and writes.  `fileOpened` models `w.file != nil` (note the Go code
never resets `w.file` to nil after closing it).  `epoch` is a ghost
counter naming the current file session: it is bumped each time
`openNewFile` runs, so two sessions at the same path are distinguished. -/
structure WState where
  filename : String
  headerText : String
  trailerText : String
  maxlines : Nat
  maxsize : Nat
  curlines : Nat
  cursize : Nat
  daily : Bool
  openDate : String
  rotate : Bool
  keepRotatedSeconds : Int
  fileOpened : Bool
  writerSinks : List Sink
  epoch : Nat
deriving DecidableEq, Repr

/-- The world outside the writer struct: the directory, the bytes written
to standard output, the current time, and ghost history used only to state
theorems: `writes` records `(epoch, bytes)` for each log record written,
`trailerWrites` counts trailer emissions, `fileCloses` counts
`file.Close()` calls. -/
structure World where
  fs : FS
  stdout : String
  now : Time
  writes : List (Nat × String)
  trailerWrites : Nat
  fileCloses : Nat
deriving DecidableEq, Repr

/-- Write a string through a list of sinks, the embedding of
`fmt.Fprint(w.writer, s)` where `w.writer` is an `io.MultiWriter`. -/
def writeOut (sinks : List Sink) (s : String) (world : World) : World :=
  sinks.foldl
    (fun wo sk =>
      match sk with
      | Sink.file p => { wo with fs := fsAppend wo.fs p s wo.now }
      | Sink.stdout => { wo with stdout := wo.stdout ++ s })
    world

/-- Embedding of `Writer.openNewFile`: open the target with
`O_RDWR|O_APPEND|O_CREATE`, recover `dailyOpenDate` from the modification
time, `maxsizeCursize` from the stat size, `maxlinesCurlines` by scanning
the lines, install the `MultiWriter`, and print the formatted header. -/
def openNewFile (w : WState) (world : World) : WState × World :=
  let (fd, fs1) :=
    match fsGet world.fs w.filename with
    | some d => (d, world.fs)
    | none => (⟨"", world.now⟩, fsSet world.fs w.filename ⟨"", world.now⟩)
  let w1 : WState :=
    { w with
      fileOpened := true
      writerSinks := [Sink.file w.filename, Sink.stdout]
      openDate := dayOf fd.modTime
      cursize := u64 fd.content.length
      curlines := u64 (countLines fd.content)
      epoch := w.epoch + 1 }
  (w1, writeOut w1.writerSinks w.headerText { world with fs := fs1 })

/-- Embedding of `Writer.closeCurrentFile`: when a file has been opened,
print the formatted trailer through the session writer and close the file
descriptor.  Only the world changes (`w.file` stays non-nil in Go). -/
def closeCurrentFile (w : WState) (world : World) : World :=
  if w.fileOpened then
    let world1 := writeOut w.writerSinks w.trailerText world
    { world1 with
      trailerWrites := world1.trailerWrites + 1
      fileCloses := world1.fileCloses + 1 }
  else world

/-- Embedding of `Writer.write`: print the formatted record (modelled by
the string `s`, since the log4go formatter is external to the repository),
then bump the line counter by one and the size counter by the number of
bytes written. -/
def write (w : WState) (world : World) (s : String) : WState × World :=
  let world1 := writeOut w.writerSinks s world
  let world2 := { world1 with writes := world1.writes ++ [(w.epoch, s)] }
  ({ w with
      curlines := u64 (w.curlines + 1)
      cursize := u64 (w.cursize + s.length) },
    world2)

/-- One entry of a directory listing, as `ioutil.ReadDir` reports it. -/
structure DirEntry where
  name : String
  isDir : Bool
  modTime : Time
deriving DecidableEq, Repr

/-- `strings.HasPrefix`, computed on the character lists so that concrete
instances evaluate inside the kernel. -/
def hasPre (s pre : String) : Bool :=
  pre.toList.isPrefixOf s.toList

/-- `strings.TrimPrefix(name, base)` in the branch where `name` starts
with `base`. -/
def suffixAfter (base name : String) : String :=
  String.mk (name.toList.drop base.toList.length)

/-- The entries `processAlreadyRotatedFiles` does not `continue` past:
not a directory, name starts with the base name, and the remainder after
the base name is non-empty. -/
def matchEntry (base : String) (e : DirEntry) : Bool :=
  !e.isDir && hasPre e.name base && suffixAfter base e.name ≠ ""

/-- `strings.TrimPrefix(suffix, ".")`. -/
def trimDot (s : String) : String :=
  match s.toList with
  | '.' :: rest => String.mk rest
  | _ => s

/-- Interpret a list of decimal digits. -/
def digitsToNat : List Char → Nat
  | [] => 0
  | c :: cs => digitsToNat cs + c.toNat * 10 ^ cs.length - '0'.toNat * 10 ^ cs.length

/-- Whether a character list is a non-empty run of decimal digits. -/
def allDigits (cs : List Char) : Bool :=
  cs ≠ [] && cs.all (fun c => c.isDigit)

/-- Model of `strconv.Atoi` as used on line 148 of the source: the result
with the error discarded, so an unparseable string contributes `0`.  A
value outside the `int64` range is clamped, as `strconv.Atoi` reports the
clamped value together with `ErrRange`. -/
def atoi (s : String) : Int :=
  let cs := s.toList
  let (neg, ds) :=
    match cs with
    | '-' :: rest => (true, rest)
    | '+' :: rest => (false, rest)
    | rest => (false, rest)
  if allDigits ds then
    let v : Int := Int.ofNat (digitsToNat ds)
    let v := if neg then -v else v
    if v > (2 ^ 63 - 1 : Int) then (2 ^ 63 - 1 : Int)
    else if v < (-(2 ^ 63) : Int) then (-(2 ^ 63) : Int)
    else v
  else 0

/-- The numeric suffix the scan parses out of a matching entry name. -/
def parsedSuffix (base name : String) : Int :=
  atoi (trimDot (suffixAfter base name))

/-- Left-pad a string with zeros to width 3, the integer already
rendered. -/
def padZero3 (s : String) : String :=
  if s.length ≥ 3 then s else String.mk (List.replicate (3 - s.length) '0') ++ s

/-- Model of `fmt.Sprintf(".%03d", n)` without the leading dot (the scan
only ever formats `lastNum + 1 ≥ 1`, so the non-negative case is the one
exercised). -/
def pad3 (n : Int) : String :=
  if n < 0 then "-" ++ padZero3 (toString n.natAbs) else padZero3 (toString n)

/-- Accumulator of the directory scan loop: the maximum suffix seen, the
names on which `os.Remove` was called, and those on which it succeeded. -/
structure ScanAcc where
  lastNum : Int
  attempted : List String
  removed : List String
deriving DecidableEq, Repr

/-- One iteration of the loop of `processAlreadyRotatedFiles` (lines
139-161 of the source).  `removeFails` injects `os.Remove` failures,
which the code reports to stderr and otherwise ignores. -/
def scanStep (base : String) (keep : Int) (now : Time)
    (removeFails : String → Bool) (acc : ScanAcc) (e : DirEntry) : ScanAcc :=
  if matchEntry base e then
    let num := parsedSuffix base e.name
    let last1 := if num > acc.lastNum then num else acc.lastNum
    if keep > 0 ∧ now - e.modTime > keep then
      { lastNum := last1
        attempted := acc.attempted ++ [e.name]
        removed :=
          if removeFails e.name then acc.removed else acc.removed ++ [e.name] }
    else { acc with lastNum := last1 }
  else acc

/-- The directory scan of `processAlreadyRotatedFiles` over a listing. -/
def scanRotated (base : String) (keep : Int) (now : Time)
    (entries : List DirEntry) (removeFails : String → Bool) : ScanAcc :=
  entries.foldl (scanStep base keep now removeFails) ⟨0, [], []⟩

/-- Embedding of `Writer.processAlreadyRotatedFiles`: scan the directory
listing (`none` models an `ioutil.ReadDir` error, after which `lastNum`
stays 0), clamp `lastNum` below 1 to 0, and return the next rotation name
`filename + ".%03d" % (lastNum+1)` together with the deletion history. -/
def processAlreadyRotatedFiles (filename : String) (keep : Int) (now : Time)
    (listing : Option (List DirEntry)) (removeFails : String → Bool) :
    String × ScanAcc :=
  let acc :=
    match listing with
    | some es => scanRotated filename keep now es removeFails
    | none => ⟨0, [], []⟩
  let last1 := if acc.lastNum < 1 then 0 else acc.lastNum
  (filename ++ "." ++ pad3 (last1 + 1), acc)

/-- The directory listing the model presents to the scan: every stored
file, none of them a directory. -/
def fsEntries (fs : FS) : List DirEntry :=
  fs.map (fun b => ⟨b.1, false, b.2.modTime⟩)

/-- Embedding of `Writer.doRotation`.  `renameOther` injects an
`os.Rename` failure that is not `os.IsNotExist`; the in-memory file
system itself can only produce the not-exist case, which `fsRename`
absorbs.  On a non-tolerated rename failure the rotation returns the
error `rotation failed: ...` without reopening. -/
def doRotation (w : WState) (world : World) (renameOther : Bool) :
    Except String (WState × World) := do
  let world1 := closeCurrentFile w world
  let world2 ←
    if w.rotate then
      let pr := processAlreadyRotatedFiles w.filename w.keepRotatedSeconds
        world1.now (some (fsEntries world1.fs)) (fun _ => false)
      let fs1 := pr.2.removed.foldl fsRemove world1.fs
      if renameOther then
        Except.error "rotation failed: rename error"
      else
        Except.ok { world1 with fs := fsRename fs1 w.filename pr.1 }
    else
      Except.ok world1
  if w.fileOpened then
    Except.ok (openNewFile w world2)
  else
    Except.ok (w, world2)

/-- Evaluation of the rotation condition of lines 96-99 of the source,
on the current counters, before the record is written. -/
def rotationDue (w : WState) (today : String) : Bool :=
  (w.maxlines > 0 && w.curlines ≥ w.maxlines) ||
  (w.maxsize > 0 && w.cursize ≥ w.maxsize) ||
  (w.daily && today ≠ w.openDate)

/-- Modelled from the spec: the Rotation Policy predicate of section 4.2,
`due = (maxLines>0 && lineCount>=maxLines) || (maxBytes>0 &&
byteSize>=maxBytes) || (dailyRotation && openDate != today)`, written
from the spec's words, to be compared with `rotationDue`, which is
written from the source. -/
def specDue (maxLines lineCount maxBytes byteSize : Nat)
    (dailyRotation : Bool) (openDate today : String) : Bool :=
  (maxLines > 0 && lineCount ≥ maxLines) ||
  (maxBytes > 0 && byteSize ≥ maxBytes) ||
  (dailyRotation && openDate ≠ today)

/-- An item the actor goroutine can receive: a log record (already
formatted, log4go being external) from `w.rec`, or a rotation request
from `w.rot`. -/
inductive Item where
  | record (s : String)
  | rot
deriving DecidableEq, Repr

/-- Processing of one dequeued item by the goroutine of `NewWriter`
(lines 79-110 of the source): a rotation request runs `doRotation`
unconditionally; a record first opens a file if none is open, then
rotates if the rotation condition holds on the pre-write counters, then
writes the record. -/
def stepItem (today : String) (w : WState) (world : World)
    (renameOther : Bool) : Item → Except String (WState × World)
  | Item.rot => doRotation w world renameOther
  | Item.record s => do
    let (w1, world1) :=
      if w.fileOpened then (w, world) else openNewFile w world
    let (w2, world2) ←
      if rotationDue w1 today then doRotation w1 world1 renameOther
      else Except.ok (w1, world1)
    Except.ok (write w2 world2 s)

/-- The whole system: the writer state, the world, the pending contents
of the two channels `w.rec` (a FIFO of records) and `w.rot` (a count of
pending requests), whether the record channel has been closed by
`Close()`, and whether the goroutine has returned. -/
structure Sys where
  w : WState
  world : World
  recQ : List String
  rotQ : Nat
  recClosed : Bool
  halted : Bool
deriving DecidableEq, Repr

/-- An event of an interleaving: a producer enqueues a record or a
rotation request, or the goroutine's `select` delivers from one of the
two channels.  `dRotFail` is a rotation delivery during which `os.Rename`
fails with an error that is not `os.IsNotExist`. -/
inductive Ev where
  | enqRec (s : String)
  | enqRot
  | dRec
  | dRot
  | dRotFail
deriving DecidableEq, Repr

/-- One transition of the system.  Deliveries to a halted goroutine do
nothing (the goroutine has returned; later sends park forever).  A
processing error halts the goroutine, as the `return` statements of lines
84, 93, 102 and 107 of the source do. -/
def sysStep (today : String) (sys : Sys) : Ev → Sys
  | Ev.enqRec s => { sys with recQ := sys.recQ ++ [s] }
  | Ev.enqRot => { sys with rotQ := sys.rotQ + 1 }
  | Ev.dRec =>
    if sys.halted then sys
    else
      match sys.recQ with
      | [] => sys
      | s :: rest =>
        match stepItem today sys.w sys.world false (Item.record s) with
        | Except.ok (w1, world1) =>
          { sys with w := w1, world := world1, recQ := rest }
        | Except.error _ => { sys with recQ := rest, halted := true }
  | Ev.dRot =>
    if sys.halted ∨ sys.rotQ = 0 then sys
    else
      match stepItem today sys.w sys.world false Item.rot with
      | Except.ok (w1, world1) =>
        { sys with w := w1, world := world1, rotQ := sys.rotQ - 1 }
      | Except.error _ => { sys with rotQ := sys.rotQ - 1, halted := true }
  | Ev.dRotFail =>
    if sys.halted ∨ sys.rotQ = 0 then sys
    else
      match stepItem today sys.w sys.world true Item.rot with
      | Except.ok (w1, world1) =>
        { sys with w := w1, world := world1, rotQ := sys.rotQ - 1 }
      | Except.error _ => { sys with rotQ := sys.rotQ - 1, halted := true }

/-- Run a trace of events. -/
def runTrace (today : String) (sys : Sys) (tr : List Ev) : Sys :=
  tr.foldl (sysStep today) sys

/-- Embedding of `Writer.Close` (line 234): `close(w.rec)`.  Go panics
when a channel is closed twice, which the `Except.error` models. -/
def goClose (sys : Sys) : Except String Sys :=
  if sys.recClosed then Except.error "close of closed channel"
  else Except.ok { sys with recClosed := true }

/-- The goroutine's exit once the record channel is closed and drained:
`rec, ok := <-w.rec` yields `ok = false`, the loop returns, and the
deferred `closeCurrentFile` writes the trailer and closes the file. -/
def actorFinish (sys : Sys) : Sys :=
  { sys with world := closeCurrentFile sys.w sys.world, halted := true }

/-- The maximum suffix parsed out of the matching directory entries, the
spec's description of what the scan tracks. -/
def maxParsedSuffix (base : String) (es : List DirEntry) : Int :=
  ((es.filter (fun e => matchEntry base e)).map
    (fun e => parsedSuffix base e.name)).foldl max 0

theorem ite_gt_eq_max (l n : Int) : (if n > l then n else l) = max l n := by
  rw [max_def]
  split_ifs <;> omega

theorem scanStep_lastNum (base : String) (keep : Int) (now : Time)
    (rf : String → Bool) (acc : ScanAcc) (e : DirEntry) :
    (scanStep base keep now rf acc e).lastNum
      = if matchEntry base e then max acc.lastNum (parsedSuffix base e.name)
        else acc.lastNum := by
  unfold scanStep
  split_ifs <;> simp_all [ite_gt_eq_max]

theorem scanStep_attempted (base : String) (keep : Int) (now : Time)
    (rf : String → Bool) (acc : ScanAcc) (e : DirEntry) :
    (scanStep base keep now rf acc e).attempted
      = acc.attempted ++
        (if matchEntry base e ∧ keep > 0 ∧ now - e.modTime > keep
         then [e.name] else []) := by
  unfold scanStep
  split_ifs <;> simp_all

theorem scanStep_removed (base : String) (keep : Int) (now : Time)
    (rf : String → Bool) (acc : ScanAcc) (e : DirEntry) :
    (scanStep base keep now rf acc e).removed
      = acc.removed ++
        (if matchEntry base e ∧ keep > 0 ∧ now - e.modTime > keep ∧ ¬ rf e.name
         then [e.name] else []) := by
  unfold scanStep
  split_ifs <;> simp_all

theorem scan_foldl_lastNum (base : String) (keep : Int) (now : Time)
    (rf : String → Bool) (es : List DirEntry) (acc : ScanAcc) :
    (es.foldl (scanStep base keep now rf) acc).lastNum
      = es.foldl
          (fun a e =>
            if matchEntry base e then max a (parsedSuffix base e.name) else a)
          acc.lastNum := by
  induction es generalizing acc with
  | nil => rfl
  | cons e es ih =>
    simp only [List.foldl_cons]
    rw [ih, scanStep_lastNum]

theorem foldl_max_filter_map (p : DirEntry → Bool) (f : DirEntry → Int)
    (es : List DirEntry) :
    ∀ a : Int,
      ((es.filter p).map f).foldl max a
        = es.foldl (fun acc e => if p e then max acc (f e) else acc) a := by
  induction es with
  | nil => intro a; rfl
  | cons e es ih =>
    intro a
    by_cases h : p e <;> simp [h, ih]

theorem le_foldl_max (es : List Int) : ∀ a : Int, a ≤ es.foldl max a := by
  induction es with
  | nil => intro a; exact le_refl a
  | cons x es ih =>
    intro a
    exact le_trans (le_max_left a x) (ih (max a x))

theorem maxParsedSuffix_nonneg (base : String) (es : List DirEntry) :
    0 ≤ maxParsedSuffix base es :=
  le_foldl_max _ 0

theorem scanRotated_lastNum (base : String) (keep : Int) (now : Time)
    (rf : String → Bool) (es : List DirEntry) :
    (scanRotated base keep now es rf).lastNum = maxParsedSuffix base es := by
  unfold scanRotated maxParsedSuffix
  rw [scan_foldl_lastNum, foldl_max_filter_map]

/-- C6: for every directory state, the next rotation filename is the base
name plus a dot plus the maximum parsed numeric suffix over matching
entries plus one, zero-padded to 3 digits (entries whose suffix fails to
parse contribute 0 through `atoi`); with no matching entries the maximum
is 0, and when the directory listing fails entirely the result is the
base name with suffix ".001". -/
theorem next_rotation_filename (filename : String) (keep : Int) (now : Time)
    (entries : List DirEntry) (rf : String → Bool) :
    (processAlreadyRotatedFiles filename keep now (some entries) rf).1
        = filename ++ "." ++ pad3 (maxParsedSuffix filename entries + 1)
      ∧ (processAlreadyRotatedFiles filename keep now none rf).1
        = filename ++ ".001" := by
  constructor
  · show (let acc := scanRotated filename keep now entries rf
          let last1 := if acc.lastNum < 1 then 0 else acc.lastNum
          (filename ++ "." ++ pad3 (last1 + 1), acc)).1
        = filename ++ "." ++ pad3 (maxParsedSuffix filename entries + 1)
    have h1 := scanRotated_lastNum filename keep now rf entries
    have h2 := maxParsedSuffix_nonneg filename entries
    simp only [h1]
    have h3 : (if maxParsedSuffix filename entries < 1 then 0
               else maxParsedSuffix filename entries)
        = maxParsedSuffix filename entries := by
      split_ifs <;> omega
    rw [h3]
  · show filename ++ "." ++ pad3 1 = filename ++ ".001"
    have hp : pad3 1 = "001" := by decide
    rw [hp]
    apply String.ext
    simp [String.data_append, List.append_assoc]

theorem scan_foldl_attempted (base : String) (keep : Int) (now : Time)
    (rf : String → Bool) (es : List DirEntry) (acc : ScanAcc) :
    (es.foldl (scanStep base keep now rf) acc).attempted
      = acc.attempted ++
        (es.filter
          (fun e => matchEntry base e && decide (keep > 0 ∧ now - e.modTime > keep))).map
          (fun e => e.name) := by
  induction es generalizing acc with
  | nil => simp
  | cons e es ih =>
    simp only [List.foldl_cons]
    rw [ih]
    by_cases hm : matchEntry base e
    · by_cases ho : keep > 0 ∧ now - e.modTime > keep
      · simp [scanStep_attempted, hm, ho]
      · simp [scanStep_attempted, hm, ho]
    · simp [scanStep_attempted, hm]

theorem scan_foldl_removed (base : String) (keep : Int) (now : Time)
    (rf : String → Bool) (es : List DirEntry) (acc : ScanAcc) :
    (es.foldl (scanStep base keep now rf) acc).removed
      = acc.removed ++
        (((es.filter
            (fun e => matchEntry base e && decide (keep > 0 ∧ now - e.modTime > keep))).map
            (fun e => e.name)).filter (fun n => !rf n)) := by
  induction es generalizing acc with
  | nil => simp
  | cons e es ih =>
    simp only [List.foldl_cons]
    rw [ih]
    by_cases hm : matchEntry base e
    · by_cases ho : keep > 0 ∧ now - e.modTime > keep
      · by_cases hr : rf e.name
        · simp [scanStep_removed, hm, ho, hr]
        · simp [scanStep_removed, hm, ho, hr]
      · simp [scanStep_removed, hm, ho]
        intro h1 h2
        exact absurd ⟨h1, h2⟩ ho
    · simp [scanStep_removed, hm]

/-- C9: during a retention scan with `retentionAge > 0`
(`keepRotatedSeconds` in the source), the files whose deletion is
attempted are exactly the matching entries whose modification time is
strictly older than `now - retentionAge`, in listing order; the files
actually removed are those among them whose `os.Remove` succeeded, so one
failing deletion does not abort the scan of the remaining files; and a
matching entry that is not strictly older than the cutoff is never
deleted. -/
theorem retention_scan (base : String) (keep : Int) (now : Time)
    (es : List DirEntry) (rf : String → Bool)
    (hkeep : keep > 0) (hnd : (es.map (fun e => e.name)).Nodup) :
    (scanRotated base keep now es rf).attempted
        = (es.filter
            (fun e => matchEntry base e && decide (now - e.modTime > keep))).map
            (fun e => e.name)
      ∧ (scanRotated base keep now es rf).removed
        = ((es.filter
            (fun e => matchEntry base e && decide (now - e.modTime > keep))).map
            (fun e => e.name)).filter (fun n => !rf n)
      ∧ ∀ e ∈ es, matchEntry base e = true → now - e.modTime ≤ keep →
          e.name ∉ (scanRotated base keep now es rf).attempted := by
  have hfil :
      es.filter
          (fun e => matchEntry base e && decide (keep > 0 ∧ now - e.modTime > keep))
        = es.filter
          (fun e => matchEntry base e && decide (now - e.modTime > keep)) := by
    apply List.filter_congr
    intro e _
    simp [hkeep]
  have ha : (scanRotated base keep now es rf).attempted
      = (es.filter
          (fun e => matchEntry base e && decide (now - e.modTime > keep))).map
          (fun e => e.name) := by
    unfold scanRotated
    rw [scan_foldl_attempted, hfil]
    simp
  have hr : (scanRotated base keep now es rf).removed
      = ((es.filter
          (fun e => matchEntry base e && decide (now - e.modTime > keep))).map
          (fun e => e.name)).filter (fun n => !rf n) := by
    unfold scanRotated
    rw [scan_foldl_removed, hfil]
    simp
  refine ⟨ha, hr, ?_⟩
  intro e he hm hage hmem
  rw [ha] at hmem
  rcases List.mem_map.mp hmem with ⟨e2, he2, hname⟩
  rcases List.mem_filter.mp he2 with ⟨he2es, hp⟩
  have heq : e2 = e :=
    List.inj_on_of_nodup_map hnd he2es he hname
  subst heq
  simp only [Bool.and_eq_true, decide_eq_true_eq] at hp
  have hp2 := hp.2
  exact absurd hp2 (not_lt.mpr hage)

/-- Witness for C9: with a retention age of 1 second, a file 10 seconds
old is attempted and removed, a file 0 seconds old survives. -/
theorem retention_scan_witness :
    (scanRotated "app.log" 1 10
        [⟨"app.log.001", false, 0⟩, ⟨"app.log.002", false, 10⟩]
        (fun _ => false)).attempted = ["app.log.001"]
      ∧ (scanRotated "app.log" 1 10
        [⟨"app.log.001", false, 0⟩, ⟨"app.log.002", false, 10⟩]
        (fun _ => false)).removed = ["app.log.001"] := by
  have h := retention_scan "app.log" 1 10
      [⟨"app.log.001", false, 0⟩, ⟨"app.log.002", false, 10⟩]
      (fun _ => false) (by decide) (by decide)
  exact ⟨h.1.trans (by decide), h.2.1.trans (by decide)⟩

theorem writeOut_writes (sinks : List Sink) (s : String) (world : World) :
    (writeOut sinks s world).writes = world.writes := by
  induction sinks generalizing world with
  | nil => rfl
  | cons sk rest ih =>
    cases sk <;> simp [writeOut, List.foldl_cons] <;>
      exact ih _

theorem writeOut_trailerWrites (sinks : List Sink) (s : String) (world : World) :
    (writeOut sinks s world).trailerWrites = world.trailerWrites := by
  induction sinks generalizing world with
  | nil => rfl
  | cons sk rest ih =>
    cases sk <;> simp [writeOut, List.foldl_cons] <;>
      exact ih _

theorem writeOut_fileCloses (sinks : List Sink) (s : String) (world : World) :
    (writeOut sinks s world).fileCloses = world.fileCloses := by
  induction sinks generalizing world with
  | nil => rfl
  | cons sk rest ih =>
    cases sk <;> simp [writeOut, List.foldl_cons] <;>
      exact ih _

theorem closeCurrentFile_writes (w : WState) (world : World) :
    (closeCurrentFile w world).writes = world.writes := by
  unfold closeCurrentFile
  split_ifs <;> simp [writeOut_writes]

theorem write_epoch (w : WState) (world : World) (s : String) :
    (write w world s).1.epoch = w.epoch := rfl

theorem write_writes (w : WState) (world : World) (s : String) :
    (write w world s).2.writes = world.writes ++ [(w.epoch, s)] := by
  unfold write
  simp [writeOut_writes]

theorem openNewFile_epoch (w : WState) (world : World) :
    (openNewFile w world).1.epoch = w.epoch + 1 := by
  unfold openNewFile
  cases h : fsGet world.fs w.filename <;> simp [h]

theorem openNewFile_fileOpened (w : WState) (world : World) :
    (openNewFile w world).1.fileOpened = true := by
  unfold openNewFile
  cases h : fsGet world.fs w.filename <;> simp [h]

theorem openNewFile_sinks (w : WState) (world : World) :
    (openNewFile w world).1.writerSinks
      = [Sink.file w.filename, Sink.stdout] := by
  unfold openNewFile
  cases h : fsGet world.fs w.filename <;> simp [h]

theorem openNewFile_writes (w : WState) (world : World) :
    (openNewFile w world).2.writes = world.writes := by
  unfold openNewFile
  cases h : fsGet world.fs w.filename <;> simp [h, writeOut_writes]

/-- The world after the close-and-rename phase of a fault-free rotation:
the trailer has been flushed, the expired rotated files removed, and (when
`rotate` is set) the target renamed to the next rotation name. -/
def rotWorld (w : WState) (world : World) : World :=
  let world1 := closeCurrentFile w world
  if w.rotate then
    let pr := processAlreadyRotatedFiles w.filename w.keepRotatedSeconds
      world1.now (some (fsEntries world1.fs)) (fun _ => false)
    { world1 with
      fs := fsRename (pr.2.removed.foldl fsRemove world1.fs) w.filename pr.1 }
  else world1

/-- With no injected rename fault, `doRotation` never reaches its error
branch: the only rename failure the in-memory file system can produce is
the tolerated not-exist case. -/
theorem doRotation_false_eq (w : WState) (world : World) :
    doRotation w world false
      = (if w.fileOpened then Except.ok (openNewFile w (rotWorld w world))
         else Except.ok (w, rotWorld w world)) := by
  unfold doRotation rotWorld
  by_cases hr : w.rotate <;>
    simp [hr, Bind.bind, Except.bind]

theorem rotWorld_writes (w : WState) (world : World) :
    (rotWorld w world).writes = world.writes := by
  unfold rotWorld
  by_cases hr : w.rotate <;> simp [hr, closeCurrentFile_writes]

theorem doRotation_false_open_facts (w : WState) (world : World)
    (hf : w.fileOpened = true) :
    ∀ p, doRotation w world false = Except.ok p →
      p.1.epoch = w.epoch + 1 ∧ p.1.fileOpened = true ∧
        p.2.writes = world.writes := by
  intro p hp
  rw [doRotation_false_eq] at hp
  simp only [hf, if_true, Except.ok.injEq] at hp
  subst hp
  refine ⟨openNewFile_epoch .., openNewFile_fileOpened .., ?_⟩
  rw [openNewFile_writes, rotWorld_writes]

/-- Lines 90-95 of the source: before handling a record, open a file if
none is open yet. -/
def ensureOpen (w : WState) (world : World) : WState × World :=
  if w.fileOpened then (w, world) else openNewFile w world

theorem ensureOpen_fileOpened (w : WState) (world : World) :
    (ensureOpen w world).1.fileOpened = true := by
  unfold ensureOpen
  by_cases hf : w.fileOpened <;> simp [hf, openNewFile_fileOpened]

theorem stepItem_record_eq (today s : String) (w : WState) (world : World)
    (ro : Bool) :
    stepItem today w world ro (Item.record s)
      = (if rotationDue (ensureOpen w world).1 today then
           Except.map (fun q => write q.1 q.2 s)
             (doRotation (ensureOpen w world).1 (ensureOpen w world).2 ro)
         else
           Except.ok
             (write (ensureOpen w world).1 (ensureOpen w world).2 s)) := by
  unfold stepItem ensureOpen
  by_cases hf : w.fileOpened <;>
    simp only [hf, if_true, if_false] <;>
    split <;>
    simp_all [Bind.bind, Except.bind, Except.map]

/-- C1: for every dequeued record, the rotation decision is computed from
the pre-write counters exactly as the spec predicate
`due = (maxLines>0 && lineCount>=maxLines) || (maxBytes>0 &&
byteSize>=maxBytes) || (dailyRotation && openDate != today)`; a zero
threshold never triggers its dimension; and when due is true the rotation
is executed before the record is written, so the record that crossed the
threshold is logged against the fresh session (`epoch + 1`), not the old
one. -/
theorem rotation_decision (today s : String) (w w1 w2 : WState)
    (world world1 world2 : World)
    (hopen : (w1, world1) = ensureOpen w world)
    (hstep : stepItem today w world false (Item.record s)
      = Except.ok (w2, world2)) :
    rotationDue w1 today
        = specDue w1.maxlines w1.curlines w1.maxsize w1.cursize w1.daily
            w1.openDate today
      ∧ (∀ lcA lcB mB bs d od,
          specDue 0 lcA mB bs d od today = specDue 0 lcB mB bs d od today)
      ∧ (∀ mL lc bsA bsB d od,
          specDue mL lc 0 bsA d od today = specDue mL lc 0 bsB d od today)
      ∧ (∀ mL lc mB bs odA odB,
          specDue mL lc mB bs false odA today
            = specDue mL lc mB bs false odB today)
      ∧ (rotationDue w1 today = true →
          w2.epoch = w1.epoch + 1
            ∧ world2.writes = world1.writes ++ [(w1.epoch + 1, s)])
      ∧ (rotationDue w1 today = false →
          w2.epoch = w1.epoch
            ∧ world2.writes = world1.writes ++ [(w1.epoch, s)]) := by
  have hw1 : w1 = (ensureOpen w world).1 := by rw [← hopen]
  have hwo : world1 = (ensureOpen w world).2 := by rw [← hopen]
  rw [stepItem_record_eq] at hstep
  refine ⟨?_, ?_, ?_, ?_, ?_, ?_⟩
  · unfold rotationDue specDue
    have hne : (decide (today ≠ w1.openDate) : Bool)
        = decide (w1.openDate ≠ today) := decide_eq_decide.mpr ne_comm
    rw [hne]
  · intro lcA lcB mB bs d od
    simp [specDue]
  · intro mL lc bsA bsB d od
    simp [specDue]
  · intro mL lc mB bs odA odB
    simp [specDue]
  · intro hd
    rw [hw1] at hd
    rw [if_pos hd] at hstep
    rw [doRotation_false_eq, if_pos (ensureOpen_fileOpened w world)] at hstep
    simp only [Except.map, Except.ok.injEq] at hstep
    rw [Prod.ext_iff] at hstep
    obtain ⟨h2, h3⟩ := hstep
    simp only [] at h2 h3
    rw [hw1, hwo]
    constructor
    · rw [← h2, write_epoch, openNewFile_epoch]
    · rw [← h3, write_writes, openNewFile_writes, rotWorld_writes,
        openNewFile_epoch]
  · intro hd
    rw [hw1] at hd
    rw [if_neg (by simp [hd])] at hstep
    simp only [Except.ok.injEq] at hstep
    rw [Prod.ext_iff] at hstep
    obtain ⟨h2, h3⟩ := hstep
    simp only [] at h2 h3
    rw [hw1, hwo]
    constructor
    · rw [← h2, write_epoch]
    · rw [← h3, write_writes]

/-- A concrete writer one record short of its line threshold, file open. -/
def c1w : WState :=
  { filename := "a.log", headerText := "", trailerText := "",
    maxlines := 1, maxsize := 0, curlines := 1, cursize := 3,
    daily := false, openDate := "0", rotate := true, keepRotatedSeconds := 0,
    fileOpened := true, writerSinks := [Sink.file "a.log", Sink.stdout],
    epoch := 1 }

/-- The world matching `c1w`: one record already in the live file. -/
def c1world : World :=
  { fs := [("a.log", ⟨"r1\n", 0⟩)], stdout := "r1\n", now := 0,
    writes := [(1, "r1\n")], trailerWrites := 0, fileCloses := 0 }

/-- The writer state after the threshold record is processed. -/
def c1w2 : WState :=
  { c1w with curlines := 1, cursize := 3, epoch := 2 }

/-- The world after the threshold record: the old content was rotated to
`a.log.001` and the record landed in the fresh file. -/
def c1world2 : World :=
  { fs := [("a.log.001", ⟨"r1\n", 0⟩), ("a.log", ⟨"r2\n", 0⟩)],
    stdout := "r1\nr2\n", now := 0,
    writes := [(1, "r1\n"), (2, "r2\n")], trailerWrites := 1,
    fileCloses := 1 }

/-- Witness for C1: at the concrete threshold state the rotation
predicate agrees with the spec's, fires, and the triggering record is
logged against the fresh session. -/
theorem rotation_decision_witness :
    rotationDue c1w "0"
        = specDue c1w.maxlines c1w.curlines c1w.maxsize c1w.cursize
            c1w.daily c1w.openDate "0"
      ∧ rotationDue c1w "0" = true
      ∧ c1w2.epoch = c1w.epoch + 1
      ∧ c1world2.writes = c1world.writes ++ [(c1w.epoch + 1, "r2\n")] := by
  have h := rotation_decision "0" "r2\n" c1w c1w c1w2 c1world c1world c1world2
    rfl rfl
  exact ⟨h.1, rfl, (h.2.2.2.2.1 rfl).1, (h.2.2.2.2.1 rfl).2⟩

/-- A freshly constructed writer: `NewWriter("app.log", true)` with no
thresholds configured. -/
def w0 : WState :=
  { filename := "app.log", headerText := "", trailerText := "",
    maxlines := 0, maxsize := 0, curlines := 0, cursize := 0,
    daily := false, openDate := "", rotate := true, keepRotatedSeconds := 0,
    fileOpened := false, writerSinks := [], epoch := 0 }

/-- An empty world. -/
def world0 : World :=
  { fs := [], stdout := "", now := 0, writes := [], trailerWrites := 0,
    fileCloses := 0 }

/-- The whole system right after `NewWriter`. -/
def sysInit : Sys :=
  { w := w0, world := world0, recQ := [], rotQ := 0, recClosed := false,
    halted := false }

/-- C2 counterexample: the source reads records and rotation requests
from two separate channels through `select`, which chooses freely when
both are ready, so there is no single total FIFO order.  In the
interleaving below, record `r2` is enqueued after the rotation request,
yet `select` delivers `r2` first: `r2` is written to the session the
request then retires, and its bytes end up in the rotated-away file
`app.log.001` (the ghost log shows both records written in epoch 1, the
epoch the rotation request closes).  This refutes "no record enqueued
after it is written to the old file at all". -/
theorem queue_order_cex :
    (runTrace "0" sysInit
        [Ev.enqRec "r1", Ev.dRec, Ev.enqRot, Ev.enqRec "r2", Ev.dRec,
          Ev.dRot]).world.writes = [(1, "r1"), (1, "r2")]
      ∧ fsGet (runTrace "0" sysInit
          [Ev.enqRec "r1", Ev.dRec, Ev.enqRot, Ev.enqRec "r2", Ev.dRec,
            Ev.dRot]).world.fs "app.log.001" = some ⟨"r1r2", 0⟩
      ∧ (runTrace "0" sysInit
          [Ev.enqRec "r1", Ev.dRec, Ev.enqRot, Ev.enqRec "r2", Ev.dRec,
            Ev.dRot]).w.epoch = 2 := by
  refine ⟨rfl, rfl, rfl⟩

/-- The records a trace enqueues, in order. -/
def enqueuedRecs (tr : List Ev) : List String :=
  tr.filterMap (fun e =>
    match e with
    | Ev.enqRec s => some s
    | _ => none)

/-- The records written so far, in order (ghost log without the epochs). -/
def writtenRecs (sys : Sys) : List String :=
  sys.world.writes.map Prod.snd

theorem ensureOpen_writes (w : WState) (world : World) :
    (ensureOpen w world).2.writes = world.writes := by
  unfold ensureOpen
  by_cases hf : w.fileOpened <;> simp [hf, openNewFile_writes]

theorem stepItem_record_ok (today s : String) (w : WState) (world : World) :
    ∃ p, stepItem today w world false (Item.record s) = Except.ok p
      ∧ p.2.writes.map Prod.snd = world.writes.map Prod.snd ++ [s] := by
  rw [stepItem_record_eq]
  by_cases hd : rotationDue (ensureOpen w world).1 today
  · rw [if_pos hd, doRotation_false_eq,
      if_pos (ensureOpen_fileOpened w world)]
    refine ⟨_, rfl, ?_⟩
    rw [write_writes, openNewFile_writes, rotWorld_writes, ensureOpen_writes]
    simp
  · rw [if_neg hd]
    refine ⟨_, rfl, ?_⟩
    rw [write_writes, ensureOpen_writes]
    simp

theorem stepItem_rot (today : String) (w : WState) (world : World)
    (ro : Bool) :
    stepItem today w world ro Item.rot = doRotation w world ro := rfl

theorem doRotation_ok_writes (w : WState) (world : World) (ro : Bool) :
    ∀ p, doRotation w world ro = Except.ok p → p.2.writes = world.writes := by
  intro p hp
  cases ro with
  | false =>
    rw [doRotation_false_eq] at hp
    by_cases hf : w.fileOpened
    · rw [if_pos hf] at hp
      simp only [Except.ok.injEq] at hp
      subst hp
      rw [openNewFile_writes, rotWorld_writes]
    · rw [if_neg hf] at hp
      simp only [Except.ok.injEq] at hp
      subst hp
      rw [rotWorld_writes]
  | true =>
    unfold doRotation at hp
    by_cases hr : w.rotate
    · simp [hr, Bind.bind, Except.bind] at hp
    · simp only [hr, Bool.false_eq_true, if_false, Bind.bind,
        Except.bind] at hp
      by_cases hf : w.fileOpened <;> simp only [hf, if_true,
        Bool.false_eq_true, if_false, Except.ok.injEq] at hp <;> subst hp
      · rw [openNewFile_writes, closeCurrentFile_writes]
      · rw [closeCurrentFile_writes]

theorem sysStep_fifo (today : String) (sys : Sys) (ev : Ev) :
    writtenRecs (sysStep today sys ev) ++ (sysStep today sys ev).recQ
      = writtenRecs sys ++ sys.recQ ++ enqueuedRecs [ev] := by
  cases ev with
  | enqRec s =>
    simp [sysStep, enqueuedRecs, writtenRecs, List.append_assoc]
  | enqRot =>
    simp [sysStep, enqueuedRecs, writtenRecs]
  | dRec =>
    by_cases hh : sys.halted
    · simp [sysStep, hh, enqueuedRecs]
    · cases hq : sys.recQ with
      | nil => simp [sysStep, hh, hq, enqueuedRecs]
      | cons s rest =>
        obtain ⟨p, hok, hw⟩ := stepItem_record_ok today s sys.w sys.world
        simp [sysStep, hh, hq, hok, enqueuedRecs, writtenRecs, hw]
  | dRot =>
    by_cases hh : sys.halted ∨ sys.rotQ = 0
    · simp [sysStep, hh, enqueuedRecs]
    · cases hok : stepItem today sys.w sys.world false Item.rot with
      | ok p =>
        have hw := doRotation_ok_writes sys.w sys.world false p
          ((stepItem_rot today sys.w sys.world false).symm.trans hok)
        simp [sysStep, hh, hok, enqueuedRecs, writtenRecs, hw]
      | error e =>
        simp [sysStep, hh, hok, enqueuedRecs, writtenRecs]
  | dRotFail =>
    by_cases hh : sys.halted ∨ sys.rotQ = 0
    · simp [sysStep, hh, enqueuedRecs]
    · cases hok : stepItem today sys.w sys.world true Item.rot with
      | ok p =>
        have hw := doRotation_ok_writes sys.w sys.world true p
          ((stepItem_rot today sys.w sys.world true).symm.trans hok)
        simp [sysStep, hh, hok, enqueuedRecs, writtenRecs, hw]
      | error e =>
        simp [sysStep, hh, hok, enqueuedRecs, writtenRecs]

/-- C2 amended: records are written in their enqueue order relative to
each other — over every interleaving, the records written so far followed
by the records still queued equal the records enqueued so far, so the
record channel is FIFO and no record overtakes another.  The original
total-order guarantee between records and rotation requests does not
hold: the two travel on separate channels read by `select` with no
cross-channel ordering (see the counterexample), so a record enqueued
after a rotation request may still be written to the file that request
retires. -/
theorem record_fifo (today : String) (tr : List Ev) (sys : Sys) :
    writtenRecs (runTrace today sys tr) ++ (runTrace today sys tr).recQ
      = writtenRecs sys ++ sys.recQ ++ enqueuedRecs tr := by
  induction tr generalizing sys with
  | nil => simp [runTrace, enqueuedRecs]
  | cons ev tr ih =>
    have hrun : runTrace today sys (ev :: tr)
        = runTrace today (sysStep today sys ev) tr := by
      simp [runTrace]
    rw [hrun, ih, sysStep_fifo]
    have hcons : enqueuedRecs (ev :: tr)
        = enqueuedRecs [ev] ++ enqueuedRecs tr := by
      unfold enqueuedRecs
      cases ev <;> simp
    rw [hcons, List.append_assoc]

/-- The content stored at a path, the empty string when absent. -/
def contentAt (fs : FS) (p : String) : String :=
  match fsGet fs p with
  | some d => d.content
  | none => ""

theorem fsGet_fsSet_self (fs : FS) (p : String) (d : FileData) :
    fsGet (fsSet fs p d) p = some d := by
  induction fs with
  | nil => simp [fsSet, fsGet]
  | cons b rest ih =>
    by_cases h : b.1 = p <;> simp [fsSet, fsGet, h, ih]

theorem fsGet_fsSet_ne (fs : FS) (p q : String) (d : FileData)
    (h : q ≠ p) :
    fsGet (fsSet fs p d) q = fsGet fs q := by
  have hpq : ¬ p = q := fun he => h he.symm
  induction fs with
  | nil => simp [fsSet, fsGet, hpq]
  | cons b rest ih =>
    obtain ⟨bn, bd⟩ := b
    by_cases hb : bn = p
    · subst hb
      simp [fsSet, fsGet, hpq]
    · by_cases hq : bn = q <;> simp [fsSet, fsGet, hb, hq, h, ih]

theorem fsGet_fsRemove_self (fs : FS) (p : String) :
    fsGet (fsRemove fs p) p = none := by
  induction fs with
  | nil => simp [fsRemove, fsGet]
  | cons b rest ih =>
    by_cases h : b.1 = p <;> simp [fsRemove, fsGet, h, ih]

theorem fsGet_fsRename_src (fs : FS) (src dst : String) (h : dst ≠ src) :
    fsGet (fsRename fs src dst) src = none := by
  unfold fsRename
  cases hg : fsGet fs src with
  | none => exact hg
  | some d =>
    rw [fsGet_fsSet_ne _ _ _ _ (fun he => h he.symm),
      fsGet_fsRemove_self]

theorem fsGet_fsAppend_self (fs : FS) (p s : String) (now : Time) :
    fsGet (fsAppend fs p s now) p = some ⟨contentAt fs p ++ s, now⟩ := by
  unfold fsAppend contentAt
  cases hg : fsGet fs p with
  | none => simp [fsGet_fsSet_self]
  | some d => simp [fsGet_fsSet_self]

theorem fsGet_fsAppend_ne (fs : FS) (p q s : String) (now : Time)
    (h : q ≠ p) :
    fsGet (fsAppend fs p s now) q = fsGet fs q := by
  unfold fsAppend
  cases hg : fsGet fs p <;> rw [fsGet_fsSet_ne _ _ _ _ h]

theorem writeOut_pair (p s : String) (world : World) :
    writeOut [Sink.file p, Sink.stdout] s world
      = { world with
          fs := fsAppend world.fs p s world.now
          stdout := world.stdout ++ s } := rfl

theorem append_dot_ne (base x : String) : base ++ "." ++ x ≠ base := by
  intro h
  have hl := congrArg String.length h
  rw [String.length_append, String.length_append] at hl
  have hdot : String.length "." = 1 := rfl
  omega

theorem rotWorld_now (w : WState) (world : World) :
    (rotWorld w world).now = world.now := by
  have hclose : (closeCurrentFile w world).now = world.now := by
    unfold closeCurrentFile
    split_ifs with hf
    · show (writeOut w.writerSinks w.trailerText world).now = world.now
      induction w.writerSinks generalizing world with
      | nil => rfl
      | cons sk rest ih => cases sk <;> simp [writeOut, List.foldl_cons] <;> exact ih _
    · rfl
  unfold rotWorld
  by_cases hr : w.rotate <;> simp [hr, hclose]

theorem openNewFile_curlines (w : WState) (world : World) :
    (openNewFile w world).1.curlines
      = u64 (countLines (contentAt world.fs w.filename)) := by
  unfold openNewFile contentAt
  cases hg : fsGet world.fs w.filename <;> simp [hg]

theorem openNewFile_cursize (w : WState) (world : World) :
    (openNewFile w world).1.cursize
      = u64 (contentAt world.fs w.filename).length := by
  unfold openNewFile contentAt
  cases hg : fsGet world.fs w.filename <;> simp [hg]

theorem openNewFile_fsGet (w : WState) (world : World) :
    fsGet (openNewFile w world).2.fs w.filename
      = some ⟨contentAt world.fs w.filename ++ w.headerText, world.now⟩ := by
  unfold openNewFile
  cases hg : fsGet world.fs w.filename with
  | some d =>
    simp only [hg, writeOut_pair]
    rw [fsGet_fsAppend_self]
  | none =>
    simp only [hg, writeOut_pair]
    rw [fsGet_fsAppend_self]
    have hc : contentAt (fsSet world.fs w.filename ⟨"", world.now⟩)
        w.filename = "" := by
      unfold contentAt
      rw [fsGet_fsSet_self]
    rw [hc]
    unfold contentAt
    rw [hg]

theorem openNewFile_stdout (w : WState) (world : World) :
    (openNewFile w world).2.stdout = world.stdout ++ w.headerText := by
  unfold openNewFile
  cases hg : fsGet world.fs w.filename <;> simp [hg, writeOut_pair]

/-- The double-close scenario: `Close()` once, let the goroutine drain
and exit (running the deferred `closeCurrentFile`), then `Close()` again. -/
def closeTwice (sys : Sys) : Except String Sys := do
  let sys1 ← goClose sys
  goClose (actorFinish sys1)

/-- C3 counterexample: `Close` is `close(w.rec)` (line 235 of the
source), and closing an already-closed Go channel panics.  At the
concrete initial writer, the first close succeeds and the second close
panics, so a second call is not an error-free no-op. -/
theorem close_twice_cex :
    goClose sysInit = Except.ok { sysInit with recClosed := true }
      ∧ closeTwice sysInit = Except.error "close of closed channel" := by
  exact ⟨rfl, rfl⟩

theorem closeCurrentFile_trailerWrites (w : WState) (world : World)
    (hf : w.fileOpened = true) :
    (closeCurrentFile w world).trailerWrites = world.trailerWrites + 1 := by
  unfold closeCurrentFile
  simp [hf, writeOut_trailerWrites]

theorem closeCurrentFile_fileCloses (w : WState) (world : World)
    (hf : w.fileOpened = true) :
    (closeCurrentFile w world).fileCloses = world.fileCloses + 1 := by
  unfold closeCurrentFile
  simp [hf, writeOut_fileCloses]

/-- C3 amended: `close` is not idempotent.  The first call closes the
record channel; the goroutine's single exit then writes the trailer
exactly once and closes the file exactly once; but a second call to
`close` closes an already-closed channel, which panics rather than being
a no-op. -/
theorem close_semantics (sys : Sys)
    (h1 : sys.recClosed = false) (h2 : sys.w.fileOpened = true) :
    goClose sys = Except.ok { sys with recClosed := true }
      ∧ (actorFinish { sys with recClosed := true }).world.trailerWrites
          = sys.world.trailerWrites + 1
      ∧ (actorFinish { sys with recClosed := true }).world.fileCloses
          = sys.world.fileCloses + 1
      ∧ goClose (actorFinish { sys with recClosed := true })
          = Except.error "close of closed channel" := by
  refine ⟨?_, ?_, ?_, ?_⟩
  · unfold goClose
    simp [h1]
  · exact closeCurrentFile_trailerWrites sys.w sys.world h2
  · exact closeCurrentFile_fileCloses sys.w sys.world h2
  · unfold goClose actorFinish
    simp

/-- A drained system whose writer holds an open file, about to be
closed. -/
def c3sys : Sys :=
  { w := c1w, world := c1world, recQ := [], rotQ := 0, recClosed := false,
    halted := false }

/-- Witness for C3: the amended close semantics at a concrete system. -/
theorem close_semantics_witness :
    goClose c3sys = Except.ok { c3sys with recClosed := true }
      ∧ (actorFinish { c3sys with recClosed := true }).world.trailerWrites
          = c3sys.world.trailerWrites + 1
      ∧ (actorFinish { c3sys with recClosed := true }).world.fileCloses
          = c3sys.world.fileCloses + 1
      ∧ goClose (actorFinish { c3sys with recClosed := true })
          = Except.error "close of closed channel" :=
  close_semantics c3sys rfl rfl

/-- A writer at its line threshold with `rotate = false`
(`keepRotatedFiles` false). -/
def c4w : WState :=
  { filename := "b.log", headerText := "", trailerText := "",
    maxlines := 1, maxsize := 0, curlines := 1, cursize := 3,
    daily := false, openDate := "0", rotate := false, keepRotatedSeconds := 0,
    fileOpened := true, writerSinks := [Sink.file "b.log", Sink.stdout],
    epoch := 1 }

/-- The world matching `c4w`: one record already in the live file. -/
def c4world : World :=
  { fs := [("b.log", ⟨"r1\n", 0⟩)], stdout := "r1\n", now := 0,
    writes := [(1, "r1\n")], trailerWrites := 0, fileCloses := 0 }

/-- C4, evaluated at the failing input: with `keepRotatedFiles = false`,
a threshold-triggered rotation renames nothing and exactly one file
remains at the target path — but `openNewFile` reopens with
`O_RDWR|O_APPEND|O_CREATE` and no `O_TRUNC`, so the file is not
truncated: after the rotation triggered by record `r2`, the live file
still holds the pre-rotation record `r1` (`"r1\nr2\n"`, not `"r2\n"`),
and the counters recover the old content (2 lines, 6 bytes), contrary to
the claim and to the `SetRotate` doc comment, which says the file is
overwritten. -/
theorem keep_false_no_truncate_cex :
    rotationDue c4w "0" = true
      ∧ stepItem "0" c4w c4world false (Item.record "r2\n")
        = Except.ok ({ c4w with curlines := 2, cursize := 6, epoch := 2 },
            { fs := [("b.log", ⟨"r1\nr2\n", 0⟩)], stdout := "r1\nr2\n",
              now := 0, writes := [(1, "r1\n"), (2, "r2\n")],
              trailerWrites := 1, fileCloses := 1 })
      ∧ fsGet [("b.log", (⟨"r1\nr2\n", 0⟩ : FileData))] "b.log"
          ≠ some ⟨"r2\n", 0⟩
      ∧ List.map Prod.fst [("b.log", (⟨"r1\nr2\n", 0⟩ : FileData))]
          = ["b.log"] := by
  refine ⟨rfl, rfl, by decide, rfl⟩

/-- C7 counterexample: an explicit rotation request processed before any
record (so `w.file == nil`) does not end with a fresh session open: the
guard `if w.file != nil` on line 125 skips `openNewFile`, no file is
created, no header is written, and the writer stays in the not-yet-open
state.  This refutes "every rotation execution ends with a fresh session
open ... with the header written". -/
theorem rotation_skips_reopen_cex :
    doRotation w0 world0 false = Except.ok (w0, world0)
      ∧ w0.fileOpened = false
      ∧ fsGet world0.fs "app.log" = none := by
  exact ⟨rfl, rfl, rfl⟩

theorem u64_eq_of_lt (n : Nat) (h : n < 2 ^ 64) : u64 n = n :=
  Nat.mod_eq_of_lt h

theorem processRotated_fst_shape (filename : String) (keep : Int)
    (now : Time) (listing : Option (List DirEntry))
    (rf : String → Bool) :
    ∃ x, (processAlreadyRotatedFiles filename keep now listing rf).1
      = filename ++ "." ++ x :=
  ⟨_, rfl⟩

theorem rotWorld_fsGet_of_rotate (w : WState) (world : World)
    (hr : w.rotate = true) :
    fsGet (rotWorld w world).fs w.filename = none := by
  unfold rotWorld
  simp only [hr, if_true]
  obtain ⟨x, hx⟩ := processRotated_fst_shape w.filename w.keepRotatedSeconds
    (closeCurrentFile w world).now
    (some (fsEntries (closeCurrentFile w world).fs)) (fun _ => false)
  rw [hx]
  exact fsGet_fsRename_src _ _ _ (append_dot_ne w.filename x)

/-- C7 amended: every rotation execution from a state with an open
session ends with a fresh session open at the target path — counters
recovered from whatever the path then holds, which with
`keepRotatedFiles` true is nothing (the rename emptied the path), so the
counters are zero — and with the header written to that fresh session.
A rotation request processed while no session is open performs only the
close/rename phase and leaves the reopen to the next record (see the
counterexample). -/
theorem rotation_execution (w : WState) (world : World)
    (hf : w.fileOpened = true) (p : WState × World)
    (hp : doRotation w world false = Except.ok p) :
    p.1.fileOpened = true
      ∧ p.1.epoch = w.epoch + 1
      ∧ p.1.writerSinks = [Sink.file w.filename, Sink.stdout]
      ∧ p.1.curlines
        = u64 (countLines (contentAt (rotWorld w world).fs w.filename))
      ∧ p.1.cursize
        = u64 (contentAt (rotWorld w world).fs w.filename).length
      ∧ fsGet p.2.fs w.filename
        = some ⟨contentAt (rotWorld w world).fs w.filename ++ w.headerText,
            (rotWorld w world).now⟩
      ∧ (w.rotate = true →
          contentAt (rotWorld w world).fs w.filename = "") := by
  rw [doRotation_false_eq, if_pos hf] at hp
  simp only [Except.ok.injEq] at hp
  subst hp
  refine ⟨openNewFile_fileOpened .., openNewFile_epoch ..,
    openNewFile_sinks .., openNewFile_curlines .., openNewFile_cursize ..,
    openNewFile_fsGet .., ?_⟩
  intro hr
  unfold contentAt
  rw [rotWorld_fsGet_of_rotate w world hr]

/-- Witness for C7: rotating the concrete open writer `c1w` yields a
fresh empty session with the header (empty here) at the target path. -/
theorem rotation_execution_witness :
    ({ c1w with
        curlines := 0
        cursize := 0
        epoch := 2
        openDate := "0" } : WState).fileOpened = true
      ∧ ({ c1w with
          curlines := 0
          cursize := 0
          epoch := 2
          openDate := "0" } : WState).epoch = c1w.epoch + 1
      ∧ ({ c1w with
          curlines := 0
          cursize := 0
          epoch := 2
          openDate := "0" } : WState).writerSinks
        = [Sink.file c1w.filename, Sink.stdout]
      ∧ ({ c1w with
          curlines := 0
          cursize := 0
          epoch := 2
          openDate := "0" } : WState).curlines
        = u64 (countLines (contentAt (rotWorld c1w c1world).fs c1w.filename))
      ∧ ({ c1w with
          curlines := 0
          cursize := 0
          epoch := 2
          openDate := "0" } : WState).cursize
        = u64 (contentAt (rotWorld c1w c1world).fs c1w.filename).length
      ∧ fsGet ([("a.log.001", ⟨"r1\n", 0⟩), ("a.log", ⟨"", 0⟩)] : FS)
          c1w.filename
        = some ⟨contentAt (rotWorld c1w c1world).fs c1w.filename
            ++ c1w.headerText, (rotWorld c1w c1world).now⟩
      ∧ (c1w.rotate = true →
          contentAt (rotWorld c1w c1world).fs c1w.filename = "") :=
  rotation_execution c1w c1world rfl
    ({ c1w with
        curlines := 0
        cursize := 0
        epoch := 2
        openDate := "0" },
      { fs := [("a.log.001", ⟨"r1\n", 0⟩), ("a.log", ⟨"", 0⟩)]
        stdout := "r1\n"
        now := 0
        writes := [(1, "r1\n")]
        trailerWrites := 1
        fileCloses := 1 }) rfl

/-- C8: with `keepRotatedFiles` true, a rename failure that is not
`os.IsNotExist` makes the whole rotation return
`rotation failed: ...`, and the goroutine terminates on that error; a
rename failure because the target does not exist is tolerated — the file
system is left as it was and the rotation returns successfully. -/
theorem rename_failure (w : WState) (world : World)
    (hrot : w.rotate = true) :
    doRotation w world true = Except.error "rotation failed: rename error"
      ∧ (∀ today : String, ∀ sys : Sys, sys.w = w → sys.world = world →
          sys.halted = false → sys.rotQ ≠ 0 →
            (sysStep today sys Ev.dRotFail).halted = true)
      ∧ (∀ fs : FS, ∀ dst : String, fsGet fs w.filename = none →
          fsRename fs w.filename dst = fs)
      ∧ (∃ p, doRotation w world false = Except.ok p) := by
  have herr : doRotation w world true
      = Except.error "rotation failed: rename error" := by
    unfold doRotation
    simp [hrot, Bind.bind, Except.bind]
  refine ⟨herr, ?_, ?_, ?_⟩
  · intro today sys h1 h2 h3 h4
    unfold sysStep
    simp only [stepItem_rot, h1, h2, herr]
    simp [h3, h4]
  · intro fs dst hnone
    unfold fsRename
    simp [hnone]
  · rw [doRotation_false_eq]
    by_cases hfo : w.fileOpened <;> simp [hfo]

/-- Witness for C8: the injected rename failure at a concrete open
writer errors out and halts a system with a pending rotation request. -/
theorem rename_failure_witness :
    doRotation c1w c1world true = Except.error "rotation failed: rename error"
      ∧ (sysStep "0"
          { w := c1w
            world := c1world
            recQ := []
            rotQ := 1
            recClosed := false
            halted := false } Ev.dRotFail).halted
        = true := by
  have h := rename_failure c1w c1world rfl
  exact ⟨h.1, h.2.1 "0" _ rfl rfl rfl (by decide)⟩

theorem contentAt_fsAppend_self (fs : FS) (p s : String) (now : Time) :
    contentAt (fsAppend fs p s now) p = contentAt fs p ++ s := by
  have h := fsGet_fsAppend_self fs p s now
  unfold contentAt
  rw [h]
  rfl

theorem write_curlines (w : WState) (world : World) (s : String) :
    (write w world s).1.curlines = u64 (w.curlines + 1) := rfl

theorem write_cursize (w : WState) (world : World) (s : String) :
    (write w world s).1.cursize = u64 (w.cursize + s.length) := rfl

/-- C5: opening a session over an existing file recovers `lineCount` by
scanning the lines, `byteSize` from the stat size, and `openDate` from
the modification date, and one further record moves the counters to
`N + 1` lines and `B + len(record)` bytes (bounds hypotheses rule out the
unreachable `uint64` wrap). -/
theorem counter_recovery (today s c : String) (t : Time) (w : WState)
    (world : World) (w2 : WState) (world2 : World)
    (hf : w.fileOpened = false)
    (hfs : fsGet world.fs w.filename = some ⟨c, t⟩)
    (hdue : rotationDue (openNewFile w world).1 today = false)
    (hl : countLines c + 1 < 2 ^ 64)
    (hb : c.length + s.length < 2 ^ 64)
    (hstep : stepItem today w world false (Item.record s)
      = Except.ok (w2, world2)) :
    (openNewFile w world).1.curlines = countLines c
      ∧ (openNewFile w world).1.cursize = c.length
      ∧ (openNewFile w world).1.openDate = dayOf t
      ∧ w2.curlines = countLines c + 1
      ∧ w2.cursize = c.length + s.length := by
  have hc : contentAt world.fs w.filename = c := by
    unfold contentAt
    rw [hfs]
  have hcl : (openNewFile w world).1.curlines = countLines c := by
    rw [openNewFile_curlines, hc, u64_eq_of_lt _ (by omega)]
  have hcs : (openNewFile w world).1.cursize = c.length := by
    rw [openNewFile_cursize, hc, u64_eq_of_lt _ (by omega)]
  have hod : (openNewFile w world).1.openDate = dayOf t := by
    unfold openNewFile
    simp [hfs]
  have he : ensureOpen w world = openNewFile w world := by
    unfold ensureOpen
    simp [hf]
  rw [stepItem_record_eq, he, if_neg (by simp [hdue])] at hstep
  simp only [Except.ok.injEq] at hstep
  rw [Prod.ext_iff] at hstep
  obtain ⟨h2, h3⟩ := hstep
  simp only [] at h2 h3
  refine ⟨hcl, hcs, hod, ?_, ?_⟩
  · rw [← h2, write_curlines, hcl, u64_eq_of_lt _ (by omega)]
  · rw [← h2, write_cursize, hcs, u64_eq_of_lt _ (by omega)]

/-- A not-yet-open writer pointed at an existing two-line four-byte
file. -/
def c5w : WState :=
  { filename := "c.log", headerText := "", trailerText := "",
    maxlines := 0, maxsize := 0, curlines := 0, cursize := 0,
    daily := false, openDate := "", rotate := true, keepRotatedSeconds := 0,
    fileOpened := false, writerSinks := [], epoch := 0 }

/-- The pre-existing file for the recovery witness. -/
def c5world : World :=
  { fs := [("c.log", ⟨"x\ny\n", 5⟩)], stdout := "", now := 9,
    writes := [], trailerWrites := 0, fileCloses := 0 }

/-- Witness for C5: recovery over `"x\ny\n"` (2 lines, 4 bytes, modified
at time 5) plus one 3-byte record gives counters 3 lines and 7 bytes. -/
theorem counter_recovery_witness :
    (openNewFile c5w c5world).1.curlines = countLines "x\ny\n"
      ∧ (openNewFile c5w c5world).1.cursize = ("x\ny\n" : String).length
      ∧ (openNewFile c5w c5world).1.openDate = dayOf 5
      ∧ ({ c5w with
          curlines := 3
          cursize := 7
          openDate := "0"
          fileOpened := true
          writerSinks := [Sink.file "c.log", Sink.stdout]
          epoch := 1 } : WState).curlines = countLines "x\ny\n" + 1
      ∧ ({ c5w with
          curlines := 3
          cursize := 7
          openDate := "0"
          fileOpened := true
          writerSinks := [Sink.file "c.log", Sink.stdout]
          epoch := 1 } : WState).cursize
        = ("x\ny\n" : String).length + ("zz\n" : String).length := by
  have h := counter_recovery "0" "zz\n" "x\ny\n" 5 c5w c5world
    ({ c5w with
        curlines := 3
        cursize := 7
        openDate := "0"
        fileOpened := true
        writerSinks := [Sink.file "c.log", Sink.stdout]
        epoch := 1 })
    ({ fs := [("c.log", ⟨"x\ny\nzz\n", 9⟩)]
       stdout := "zz\n"
       now := 9
       writes := [(1, "zz\n")]
       trailerWrites := 0
       fileCloses := 0 })
    rfl rfl rfl (by decide) (by decide) rfl
  exact h

/-- C10: every byte the writer emits — each record, the header written by
`openNewFile`, the trailer written by `closeCurrentFile` — goes through
the session writer, which `openNewFile` sets to
`io.MultiWriter(fd, os.Stdout)`; writing through that pair appends the
identical bytes to the target file and to standard output. -/
theorem multiwriter_mirror (w : WState) (world : World) (s : String)
    (hs : w.writerSinks = [Sink.file w.filename, Sink.stdout]) :
    (openNewFile w world).1.writerSinks
        = [Sink.file w.filename, Sink.stdout]
      ∧ (write w world s).2.stdout = world.stdout ++ s
      ∧ contentAt (write w world s).2.fs w.filename
        = contentAt world.fs w.filename ++ s
      ∧ (w.fileOpened = true →
          (closeCurrentFile w world).stdout = world.stdout ++ w.trailerText
            ∧ contentAt (closeCurrentFile w world).fs w.filename
              = contentAt world.fs w.filename ++ w.trailerText)
      ∧ (openNewFile w world).2.stdout = world.stdout ++ w.headerText
      ∧ contentAt (openNewFile w world).2.fs w.filename
        = contentAt world.fs w.filename ++ w.headerText := by
  refine ⟨openNewFile_sinks .., ?_, ?_, ?_, openNewFile_stdout .., ?_⟩
  · unfold write
    rw [hs, writeOut_pair]
  · unfold write
    rw [hs, writeOut_pair]
    exact contentAt_fsAppend_self ..
  · intro hf
    unfold closeCurrentFile
    rw [if_pos hf, hs, writeOut_pair]
    exact ⟨rfl, contentAt_fsAppend_self ..⟩
  · have h := openNewFile_fsGet w world
    unfold contentAt
    rw [h]
    rfl

/-- Witness for C10: the mirroring at a concrete open writer. -/
theorem multiwriter_mirror_witness :
    (openNewFile c1w c1world).1.writerSinks
        = [Sink.file c1w.filename, Sink.stdout]
      ∧ (write c1w c1world "zz").2.stdout = c1world.stdout ++ "zz"
      ∧ contentAt (write c1w c1world "zz").2.fs c1w.filename
        = contentAt c1world.fs c1w.filename ++ "zz"
      ∧ (closeCurrentFile c1w c1world).stdout
        = c1world.stdout ++ c1w.trailerText
      ∧ contentAt (closeCurrentFile c1w c1world).fs c1w.filename
        = contentAt c1world.fs c1w.filename ++ c1w.trailerText
      ∧ (openNewFile c1w c1world).2.stdout
        = c1world.stdout ++ c1w.headerText
      ∧ contentAt (openNewFile c1w c1world).2.fs c1w.filename
        = contentAt c1world.fs c1w.filename ++ c1w.headerText := by
  have h := multiwriter_mirror c1w c1world "zz" rfl
  exact ⟨h.1, h.2.1, h.2.2.1, (h.2.2.2.1 rfl).1, (h.2.2.2.1 rfl).2,
    h.2.2.2.2.1, h.2.2.2.2.2⟩

end Filelog
